import Mathlib

/-!
Formal model of `src/agent_tools.py`: a catalog of pandas-based daily
business-metric functions over a sales log and an inventory snapshot, plus a
text summary composer.

Modelling conventions:
* A pandas `DataFrame` is modelled as a list of typed rows together with the
  list of column names actually present (`presentCols`).  Accessing a column
  that is not present is the pandas `KeyError`, which the specification's
  error taxonomy calls `SchemaError`.
* `idxmax` on an empty series raises `ValueError` in pandas; the taxonomy
  calls this `EmptyInputError`.
* Python floats are abstracted as rationals (`ℚ`).  Where the source performs
  pandas *Series* division (which yields IEEE `inf`/`NaN` instead of raising),
  an explicit extended-value type `XF` models `0/0 = NaN`, `p/0 = ±inf` and
  IEEE comparison semantics (`NaN < t` is false).
* `groupby(key)` with pandas' default `sort=True` produces the distinct keys
  in ascending (lexicographic, for strings) order; `idxmax` returns the first
  index attaining the maximum.
-/

/-- Error signals of the spec's taxonomy: `SchemaError` is the pandas
`KeyError` on a missing required column, `EmptyInputError` the `ValueError`
raised by `idxmax` on an empty (zero-group) series. -/
inductive MetricError where
  | schemaError
  | emptyInputError
deriving DecidableEq

/-- One row of the sales log (columns `Item`, `Quantity`, `Cost per Unit`,
`Total Price`, `Profit`, `Time`). -/
structure SalesRow where
  item : String
  quantity : ℚ
  costPerUnit : ℚ
  totalPrice : ℚ
  profit : ℚ
  time : String
deriving DecidableEq

/-- The sales log: the list of column names present plus the rows.  A table
"lacking a column" is one whose `presentCols` omits that name; the guarded
accessor `SalesDF.col` is the only way metric code reads a column. -/
structure SalesDF where
  presentCols : List String
  rows : List SalesRow
deriving DecidableEq

/-- One row of the inventory snapshot (columns `Item`, `Stock`). -/
structure InvRow where
  item : String
  stock : ℚ
deriving DecidableEq

/-- The inventory snapshot. -/
structure InvDF where
  presentCols : List String
  rows : List InvRow
deriving DecidableEq

/-- The six sales-table column names fixed by the interface contract. -/
def salesCols : List String :=
  ["Item", "Quantity", "Cost per Unit", "Total Price", "Profit", "Time"]

/-- A well-formed sales table has every contract column present. -/
abbrev SalesDF.complete (df : SalesDF) : Prop :=
  ∀ c ∈ salesCols, c ∈ df.presentCols

/-- A well-formed inventory table has both contract columns present. -/
abbrev InvDF.complete (inv : InvDF) : Prop :=
  "Item" ∈ inv.presentCols ∧ "Stock" ∈ inv.presentCols

/-- `df[c]`, projected through `f`: the column's data if the column is
present, otherwise the `KeyError`/`SchemaError`. -/
def SalesDF.col (df : SalesDF) (c : String) (f : SalesRow → α) :
    Except MetricError (List α) :=
  if c ∈ df.presentCols then .ok (df.rows.map f) else .error .schemaError

/-- `inventory_df[c]`, projected through `f`. -/
def InvDF.col (inv : InvDF) (c : String) (f : InvRow → α) :
    Except MetricError (List α) :=
  if c ∈ inv.presentCols then .ok (inv.rows.map f) else .error .schemaError

/-- The distinct grouping keys in ascending order — pandas `groupby` with its
default `sort=True` on string keys. -/
def sortedKeys (l : List String) : List String :=
  List.insertionSort (· ≤ ·) l.dedup

/-- Sum of the values attached to key `k` — one cell of a pandas
`groupby(key)[val].sum()` series. -/
def keySum (pairs : List (String × ℚ)) (k : String) : ℚ :=
  ((pairs.filter fun p => decide (p.1 = k)).map Prod.snd).sum

/-- The whole `groupby(key)[val].sum()` series: sorted distinct keys paired
with their group sums. -/
def groupSum (pairs : List (String × ℚ)) : List (String × ℚ) :=
  (sortedKeys (pairs.map Prod.fst)).map fun k => (k, keySum pairs k)

/-- Scan for `idxmax`: keeps the current best key, replacing it only on a
strictly larger value (so the first maximal entry wins, as in pandas). -/
def idxmaxGo (k : String) (v : ℚ) : List (String × ℚ) → String
  | [] => k
  | (k₂, v₂) :: rest => if v < v₂ then idxmaxGo k₂ v₂ rest else idxmaxGo k v rest

/-- pandas `Series.idxmax`: index of the first occurrence of the maximum;
raises (`EmptyInputError`) on an empty series. -/
def idxmax : List (String × ℚ) → Except MetricError String
  | [] => .error .emptyInputError
  | (k, v) :: rest => .ok (idxmaxGo k v rest)

/-- Extended float value: result of a pandas Series division, which produces
`±inf` or `NaN` instead of raising on a zero divisor. -/
inductive XF where
  | fin (q : ℚ)
  | posInf
  | negInf
  | nan
deriving DecidableEq

/-- IEEE-style division `p / r` of finite values: finite quotient for a
nonzero divisor, `±inf` for `p ≠ 0, r = 0`, `NaN` for `0 / 0`. -/
def ratDivF (p r : ℚ) : XF :=
  if r ≠ 0 then .fin (p / r)
  else if 0 < p then .posInf
  else if p < 0 then .negInf
  else .nan

/-- Multiplication by the scalar 100 (percentage), fixing `±inf` and `NaN`. -/
def XF.mul100 : XF → XF
  | .fin q => .fin (q * 100)
  | x => x

/-- IEEE comparison of an extended value with a finite threshold: any
comparison with `NaN` is false. -/
def XF.ltRat : XF → ℚ → Bool
  | .fin q, t => decide (q < t)
  | .negInf, _ => true
  | .posInf, _ => false
  | .nan, _ => false

/-- `total_revenue` (src line 5): `df['Total Price'].sum()`. -/
def total_revenue (df : SalesDF) : Except MetricError ℚ := do
  let tp ← df.col "Total Price" (·.totalPrice)
  return tp.sum

/-- `total_cost` (src line 18): `(df['Cost per Unit'] * df['Quantity']).sum()`. -/
def total_cost (df : SalesDF) : Except MetricError ℚ := do
  let cu ← df.col "Cost per Unit" (·.costPerUnit)
  let q ← df.col "Quantity" (·.quantity)
  return ((cu.zip q).map fun p => p.1 * p.2).sum

/-- `total_profit` (src line 31): `df['Profit'].sum()`. -/
def total_profit (df : SalesDF) : Except MetricError ℚ := do
  let pr ← df.col "Profit" (·.profit)
  return pr.sum

/-- `gross_margin` (src line 44): both column sums are computed first, then
`(profit / revenue) * 100 if revenue else 0.0` — the scalar division is
guarded by the truthiness test on `revenue`. -/
def gross_margin (df : SalesDF) : Except MetricError ℚ := do
  let tp ← df.col "Total Price" (·.totalPrice)
  let pr ← df.col "Profit" (·.profit)
  return if tp.sum ≠ 0 then (pr.sum / tp.sum) * 100 else 0

/-- `total_units_sold` (src line 59): `df['Quantity'].sum()`. -/
def total_units_sold (df : SalesDF) : Except MetricError ℚ := do
  let q ← df.col "Quantity" (·.quantity)
  return q.sum

/-- `number_of_transactions` (src line 72): `len(df)` — reads no column and
cannot fail. -/
def number_of_transactions (df : SalesDF) : ℕ :=
  df.rows.length

/-- `average_basket_size` (src line 95):
`df['Quantity'].sum() / len(df) if len(df) else 0.0`.
Python evaluates the condition `len(df)` of the conditional expression first,
so on a zero-row table the `Quantity` column is never read. -/
def average_basket_size (df : SalesDF) : Except MetricError ℚ :=
  if df.rows.length ≠ 0 then do
    let q ← df.col "Quantity" (·.quantity)
    return q.sum / (df.rows.length : ℚ)
  else
    return 0

/-- `peak_sales_hour` (src line 98):
`df.groupby('Time')['Total Price'].sum().idxmax()`. -/
def peak_sales_hour (df : SalesDF) : Except MetricError String := do
  let t ← df.col "Time" (·.time)
  let tp ← df.col "Total Price" (·.totalPrice)
  idxmax (groupSum (t.zip tp))

/-- `top_selling_item` (src line 112):
`df.groupby('Item')['Quantity'].sum().idxmax()`. -/
def top_selling_item (df : SalesDF) : Except MetricError String := do
  let it ← df.col "Item" (·.item)
  let q ← df.col "Quantity" (·.quantity)
  idxmax (groupSum (it.zip q))

/-- `most_profitable_item` (src line 125):
`df.groupby('Item')['Profit'].sum().idxmax()`. -/
def most_profitable_item (df : SalesDF) : Except MetricError String := do
  let it ← df.col "Item" (·.item)
  let pr ← df.col "Profit" (·.profit)
  idxmax (groupSum (it.zip pr))

/-- `low_stock_items` (src line 138, default `threshold = 10`):
`inventory_df[inventory_df['Stock'] < threshold]['Item'].tolist()` —
the `Stock` mask is built first, then `Item` is selected on the filtered
frame (so a missing `Item` column fails even when the mask is empty). -/
def low_stock_items (inv : InvDF) (threshold : ℚ) :
    Except MetricError (List String) := do
  let st ← inv.col "Stock" (·.stock)
  let it ← inv.col "Item" (·.item)
  return ((it.zip st).filter fun p => decide (p.2 < threshold)).map Prod.fst

/-- `unsold_items` (src line 152): `list(set(inventory['Item']) -
set(sales['Item']))`.  Python's set iteration order is unspecified; the model
fixes one concrete order (first-occurrence order of the inventory column) —
all claims treat the result as a set. -/
def unsold_items (inv : InvDF) (sales : SalesDF) :
    Except MetricError (List String) := do
  let sold ← sales.col "Item" (·.item)
  let allItems ← inv.col "Item" (·.item)
  return allItems.dedup.filter fun x => decide (x ∉ sold)

/-- `fast_movers` (src line 168):
`inventory_df[inventory_df['Stock'] <= 1]['Item'].tolist()`. -/
def fast_movers (inv : InvDF) : Except MetricError (List String) := do
  let st ← inv.col "Stock" (·.stock)
  let it ← inv.col "Item" (·.item)
  return ((it.zip st).filter fun p => decide (p.2 ≤ 1)).map Prod.fst

/-- `low_margin_high_sellers` (src line 181, defaults `margin_threshold =
10.0`, `qty_threshold = 5`): group by `Item`, aggregate the `Quantity`,
`Total Price` and `Profit` sums, derive `Margin = Profit / Total Price * 100`
by Series division (IEEE semantics, no exception on a zero divisor), and
keep the groups with `Quantity >= qty_threshold` and `Margin <
margin_threshold`. -/
def low_margin_high_sellers (df : SalesDF)
    (margin_threshold qty_threshold : ℚ) : Except MetricError (List String) := do
  let it ← df.col "Item" (·.item)
  let q ← df.col "Quantity" (·.quantity)
  let tp ← df.col "Total Price" (·.totalPrice)
  let pr ← df.col "Profit" (·.profit)
  let quads := it.zip (q.zip (tp.zip pr))
  let grouped := (sortedKeys it).map fun k =>
    let grp := quads.filter fun p => decide (p.1 = k)
    (k, ((grp.map fun p => p.2.1).sum,
         (grp.map fun p => p.2.2.1).sum,
         (grp.map fun p => p.2.2.2).sum))
  let flagged := grouped.filter fun p =>
    decide (qty_threshold ≤ p.2.1) &&
      (ratDivF p.2.2.2 p.2.2.1).mul100.ltRat margin_threshold
  return flagged.map Prod.fst

/-- Character for a single decimal digit. -/
def digitChar (d : ℕ) : Char :=
  if d = 0 then '0' else if d = 1 then '1' else if d = 2 then '2'
  else if d = 3 then '3' else if d = 4 then '4' else if d = 5 then '5'
  else if d = 6 then '6' else if d = 7 then '7' else if d = 8 then '8' else '9'

/-- Fuelled decimal digit expansion (most significant digit first). -/
def natDigitsAux : ℕ → ℕ → List Char
  | 0, _ => []
  | fuel + 1, n => if n = 0 then [] else natDigitsAux fuel (n / 10) ++ [digitChar (n % 10)]

/-- Decimal representation of a natural number. -/
def natStr (n : ℕ) : List Char :=
  if n = 0 then ['0'] else natDigitsAux (n + 1) n

/-- Python `f"{n}"` for a non-negative integer. -/
def natRepr (n : ℕ) : String :=
  String.mk (natStr n)

/-- Left-pad a character list to length `n`. -/
def leftPad (n : ℕ) (c : Char) (l : List Char) : List Char :=
  List.replicate (n - l.length) c ++ l

/-- Round-half-even to an integer, the rounding used when formatting a float
at a fixed number of decimals. -/
def rhalfeven (q : ℚ) : ℤ :=
  if q - Int.floor q < 1 / 2 then Int.floor q
  else if q - Int.floor q > 1 / 2 then Int.floor q + 1
  else if Int.floor q % 2 = 0 then Int.floor q else Int.floor q + 1

/-- Decimal digits of `|q|` scaled to `p` fractional digits, padded so that an
integer part exists. -/
def fixedDigits (p : ℕ) (q : ℚ) : List Char :=
  leftPad (p + 1) '0' (natStr (rhalfeven (|q| * 10 ^ p)).toNat)

/-- Insert a comma after every third character of a reversed digit list. -/
def group3Rev : List Char → List Char
  | a :: b :: c :: d :: rest => a :: b :: c :: ',' :: group3Rev (d :: rest)
  | l => l

/-- Thousands separators of Python's `,` format flag. -/
def addCommas (l : List Char) : List Char :=
  (group3Rev l.reverse).reverse

/-- Python fixed-point float formatting `f"{q:.pf}"` (with thousands
separators when `comma` is set, i.e. `f"{q:,.pf}"`). -/
def fmtFixed (comma : Bool) (p : ℕ) (q : ℚ) : String :=
  let ds := fixedDigits p q
  let ip := ds.take (ds.length - p)
  let fp := ds.drop (ds.length - p)
  String.mk ((if q < 0 then ['-'] else []) ++
    (if comma then addCommas ip else ip) ++ '.' :: fp)

/-- `f"{q:,.2f}"` — currency format of the composer. -/
def fmtComma2 (q : ℚ) : String := fmtFixed true 2 q

/-- `f"{q:.1f}"` — percentage format of the composer. -/
def fmt1 (q : ℚ) : String := fmtFixed false 1 q

/-- `f"{q:.2f}"` — basket-size format of the composer. -/
def fmt2 (q : ℚ) : String := fmtFixed false 2 q

/-- Python `', '.join(l)`. -/
def joinComma : List String → String
  | [] => ""
  | [s] => s
  | s :: rest => s ++ ", " ++ joinComma rest

/-- One conditional diagnostic line of the composer: appended only when the
list is non-empty (Python truthiness of `None`/`[]`), as
`"\n" + label + ', '.join(l) + "."`. -/
def optLine (label : String) (l : List String) : String :=
  if l = [] then "" else "\n" ++ label ++ joinComma l ++ "."

/-- The unconditional first part of the report built by
`natural_language_summary` (src line 237; note the source never uses the
`total_cost` argument in the text). -/
def summaryBody (tr tp gm : ℚ) (tus nt : ℕ) (ab : ℚ)
    (psh tsi mpi : String) : String :=
  "Your store earned $" ++ fmtComma2 tr ++ " in revenue and made $" ++
  fmtComma2 tp ++ " in profit today, with a gross margin of " ++ fmt1 gm ++
  "%. " ++ "A total of " ++ natRepr tus ++ " items were sold in " ++
  natRepr nt ++ " transactions. " ++ "Average basket size was " ++ fmt2 ab ++
  " units per transaction. " ++ "Peak sales occurred at " ++ psh ++ ". " ++
  tsi ++ " led sales, while " ++ mpi ++ " was the most profitable item. "

/-- `natural_language_summary` (src line 199): the fixed body followed by the
four conditional diagnostic lines.  The list parameters default to `None` in
Python; `None` and `[]` behave identically under the truthiness tests, so
both are modelled as `[]`. -/
def natural_language_summary (tr _tc tp gm : ℚ) (tus nt : ℕ) (ab : ℚ)
    (psh tsi mpi : String) (lowStock unsold fast lowMargin : List String) :
    String :=
  summaryBody tr tp gm tus nt ab psh tsi mpi ++
  optLine "Low stock items: " lowStock ++
  optLine "Unsold items: " unsold ++
  optLine "Fast movers (sold out/nearly sold out): " fast ++
  optLine "High-selling, low-margin items: " lowMargin

/-- The `(Time, Total Price)` pairs of a sales table — the data grouped by
`peak_sales_hour`. -/
def timeRevPairs (df : SalesDF) : List (String × ℚ) :=
  df.rows.map fun r => (r.time, r.totalPrice)

/-- The `(Item, Quantity)` pairs — the data grouped by `top_selling_item`. -/
def itemQtyPairs (df : SalesDF) : List (String × ℚ) :=
  df.rows.map fun r => (r.item, r.quantity)

/-- The `(Item, Profit)` pairs — the data grouped by `most_profitable_item`. -/
def itemProfitPairs (df : SalesDF) : List (String × ℚ) :=
  df.rows.map fun r => (r.item, r.profit)

/-- The `(Item, Total Price)` pairs — the revenue data grouped by
`low_margin_high_sellers`. -/
def itemRevPairs (df : SalesDF) : List (String × ℚ) :=
  df.rows.map fun r => (r.item, r.totalPrice)

/-- Sum of the `Total Price` column. -/
def revSum (df : SalesDF) : ℚ :=
  (df.rows.map (·.totalPrice)).sum

/-- Sum of the `Profit` column. -/
def profSum (df : SalesDF) : ℚ :=
  (df.rows.map (·.profit)).sum

/-- `k₀` is the unique maximizer of the group sums of `pairs`: it occurs as a
key, and every other key has a strictly smaller group sum. -/
def uniqueMax (pairs : List (String × ℚ)) (k₀ : String) : Prop :=
  k₀ ∈ pairs.map Prod.fst ∧
    ∀ k ∈ pairs.map Prod.fst, k ≠ k₀ → keySum pairs k < keySum pairs k₀

/-- `res` returned the key with the maximal group sum, and the smallest such
key (in the string order used by the sorted grouping) among ties. -/
def isMinMaximizer (pairs : List (String × ℚ))
    (res : Except MetricError String) : Prop :=
  ∃ k, res = .ok k ∧ k ∈ pairs.map Prod.fst ∧
    (∀ k₂ ∈ pairs.map Prod.fst, keySum pairs k₂ ≤ keySum pairs k) ∧
    (∀ k₂ ∈ pairs.map Prod.fst, keySum pairs k₂ = keySum pairs k → k ≤ k₂)

/-- Split a character list at newline characters: the report's lines. -/
def splitNL : List Char → List (List Char)
  | [] => [[]]
  | c :: rest =>
    if c = '\n' then [] :: splitNL rest
    else
      match splitNL rest with
      | [] => [[c]]
      | l :: ls => (c :: l) :: ls

/-- The content of one diagnostic line: fixed label, comma-joined list, final
period. -/
def linePat (label : String) (l : List String) : List Char :=
  (label ++ joinComma l ++ ".").data

/-- A character list with no newline — a value that renders on one line. -/
abbrev nlfreeL (l : List Char) : Prop :=
  '\n' ∉ l

/-- A string with no newline character. -/
abbrev nlfreeS (s : String) : Prop :=
  '\n' ∉ s.data

/-- The sales fixture of spec §8 (rows Coffee and Tea). -/
def wRow1 : SalesRow := ⟨"Coffee", 3, 1, 9, 6, "09:00"⟩

/-- Second row of the spec §8 fixture. -/
def wRow2 : SalesRow := ⟨"Tea", 1, 1/2, 2, 3/2, "10:00"⟩

/-- Concrete well-formed sales table, the spec §8 scenario. -/
def wdf : SalesDF := ⟨salesCols, [wRow1, wRow2]⟩

/-- Concrete well-formed sales table with zero rows. -/
def wdfEmpty : SalesDF := ⟨salesCols, []⟩

/-- Zero-row sales table lacking the `Quantity` column. -/
def wdfNoQty : SalesDF :=
  ⟨["Item", "Cost per Unit", "Total Price", "Profit", "Time"], []⟩

/-- Non-empty sales table lacking every column. -/
def wdfBare : SalesDF := ⟨[], [wRow1]⟩

/-- Inventory table lacking every column. -/
def winvBare : InvDF := ⟨[], [⟨"Coffee", 2⟩]⟩

/-- Concrete well-formed inventory table, the spec §8 scenario. -/
def winv : InvDF := ⟨["Item", "Stock"], [⟨"Coffee", 2⟩, ⟨"Tea", 50⟩, ⟨"Milk", 0⟩]⟩

/-- Sales table with ties: both time buckets, and both items under both the
quantity and the profit grouping, tie for the maximal group sum. -/
def wdfTie : SalesDF :=
  ⟨salesCols, [⟨"B", 2, 1, 5, 1, "10:00"⟩, ⟨"A", 2, 1, 5, 1, "09:00"⟩]⟩

/-- Sales table with a flagged high-seller: `Widget` has quantity 5 and
margin 5%, `Gadget` quantity 1 and margin 50%. -/
def wdfMargin : SalesDF :=
  ⟨salesCols, [⟨"Widget", 5, 1, 10, 1/2, "09:00"⟩, ⟨"Gadget", 1, 1, 10, 5, "09:00"⟩]⟩

/-- Sales table containing an item group (`Freebie`) whose summed revenue and
profit are both zero. -/
def wdfZero : SalesDF :=
  ⟨salesCols, [⟨"Freebie", 7, 0, 0, 0, "09:00"⟩, ⟨"Gadget", 6, 1, 10, 1/2, "09:00"⟩]⟩

theorem exbind_ok (a : α) (f : α → Except MetricError β) :
    (Except.ok a >>= f) = f a := rfl

theorem exbind_error (e : MetricError) (f : α → Except MetricError β) :
    ((Except.error e : Except MetricError α) >>= f) = Except.error e := rfl

theorem expure_eq (a : α) : (pure a : Except MetricError α) = Except.ok a := rfl

theorem sortedKeys_mem (l : List String) (k : String) :
    k ∈ sortedKeys l ↔ k ∈ l := by
  unfold sortedKeys
  rw [(List.perm_insertionSort _ _).mem_iff, List.mem_dedup]

theorem sortedKeys_nodup (l : List String) : (sortedKeys l).Nodup :=
  (List.perm_insertionSort _ _).nodup_iff.mpr l.nodup_dedup

theorem sortedKeys_pairwise_lt (l : List String) :
    (sortedKeys l).Pairwise (· < ·) := by
  have hs : (sortedKeys l).Pairwise (· ≤ ·) := List.sorted_insertionSort _ _
  have hn : (sortedKeys l).Pairwise (· ≠ ·) := sortedKeys_nodup l
  exact (hs.and hn).imp fun h => lt_of_le_of_ne h.1 h.2

theorem groupSum_pairwise (pairs : List (String × ℚ)) :
    (groupSum pairs).Pairwise fun p q => p.1 < q.1 := by
  unfold groupSum
  rw [List.pairwise_map]
  exact sortedKeys_pairwise_lt _

theorem mem_groupSum {pairs : List (String × ℚ)} {k : String} {v : ℚ} :
    (k, v) ∈ groupSum pairs ↔ k ∈ pairs.map Prod.fst ∧ v = keySum pairs k := by
  unfold groupSum
  rw [List.mem_map]
  constructor
  · rintro ⟨a, ha, heq⟩
    cases heq
    exact ⟨(sortedKeys_mem _ _).mp ha, rfl⟩
  · rintro ⟨h1, rfl⟩
    exact ⟨k, (sortedKeys_mem _ _).mpr h1, rfl⟩

theorem idxmaxGo_spec (l : List (String × ℚ)) : ∀ (k : String) (v : ℚ),
    ((k, v) :: l).Pairwise (fun p q => p.1 < q.1) →
    ∃ s, (idxmaxGo k v l, s) ∈ (k, v) :: l ∧
      (∀ p ∈ (k, v) :: l, p.2 ≤ s) ∧
      (∀ p ∈ (k, v) :: l, p.2 = s → idxmaxGo k v l ≤ p.1) := by
  induction l with
  | nil =>
    intro k v _
    refine ⟨v, by simp [idxmaxGo], by simp [idxmaxGo], ?_⟩
    intro p hp _
    simp only [List.mem_singleton] at hp
    simp [idxmaxGo, hp]
  | cons hd tl ih =>
    intro k v hpw
    obtain ⟨k₂, v₂⟩ := hd
    have hkk₂ : k < k₂ := List.rel_of_pairwise_cons hpw (List.mem_cons_self _ _)
    have hpw₂ : ((k₂, v₂) :: tl).Pairwise (fun p q => p.1 < q.1) :=
      (List.pairwise_cons.mp hpw).2
    by_cases hlt : v < v₂
    · obtain ⟨s, hmem, hmax, hmin⟩ := ih k₂ v₂ hpw₂
      have hgo : idxmaxGo k v ((k₂, v₂) :: tl) = idxmaxGo k₂ v₂ tl := by
        simp [idxmaxGo, hlt]
      have hvs : v₂ ≤ s := hmax (k₂, v₂) (by simp)
      refine ⟨s, ?_, ?_, ?_⟩
      · rw [hgo]; exact List.mem_cons_of_mem _ hmem
      · intro p hp
        rcases List.mem_cons.mp hp with rfl | hp₂
        · exact le_of_lt (lt_of_lt_of_le hlt hvs)
        · exact hmax p hp₂
      · intro p hp hps
        rcases List.mem_cons.mp hp with rfl | hp₂
        · exact absurd hps (by simp; exact ne_of_lt (lt_of_lt_of_le hlt hvs))
        · rw [hgo]; exact hmin p hp₂ hps
    · have hpw₃ : ((k, v) :: tl).Pairwise (fun p q => p.1 < q.1) := by
        rw [List.pairwise_cons] at hpw ⊢
        exact ⟨fun p hp => hpw.1 p (List.mem_cons_of_mem _ hp),
          (List.pairwise_cons.mp hpw.2).2⟩
      obtain ⟨s, hmem, hmax, hmin⟩ := ih k v hpw₃
      have hgo : idxmaxGo k v ((k₂, v₂) :: tl) = idxmaxGo k v tl := by
        simp [idxmaxGo, hlt]
      have hvs : v ≤ s := hmax (k, v) (by simp)
      refine ⟨s, ?_, ?_, ?_⟩
      · rw [hgo]
        rcases List.mem_cons.mp hmem with h | h
        · rw [h]; simp
        · exact List.mem_cons_of_mem _ (List.mem_cons_of_mem _ h)
      · intro p hp
        rcases List.mem_cons.mp hp with rfl | hp₂
        · exact hmax (k, v) (by simp)
        rcases List.mem_cons.mp hp₂ with rfl | hp₃
        · exact le_trans (le_of_not_lt hlt) hvs
        · exact hmax p (List.mem_cons_of_mem _ hp₃)
      · intro p hp hps
        rcases List.mem_cons.mp hp with rfl | hp₂
        · rw [hgo]; exact hmin (k, v) (by simp) hps
        rcases List.mem_cons.mp hp₂ with rfl | hp₃
        · have hveq : v = s := le_antisymm hvs (by
            calc s = (k₂, v₂).2 := hps.symm
            _ ≤ v := le_of_not_lt hlt)
          rw [hgo]
          exact le_of_lt (lt_of_le_of_lt (hmin (k, v) (by simp) hveq) hkk₂)
        · rw [hgo]; exact hmin p (List.mem_cons_of_mem _ hp₃) hps

theorem idxmax_groupSum_spec (pairs : List (String × ℚ)) (hne : pairs ≠ []) :
    isMinMaximizer pairs (idxmax (groupSum pairs)) := by
  have hpw := groupSum_pairwise pairs
  cases hg : groupSum pairs with
  | nil =>
    exfalso
    obtain ⟨p, hp⟩ := List.exists_mem_of_ne_nil pairs hne
    have hmem : (p.1, keySum pairs p.1) ∈ groupSum pairs :=
      mem_groupSum.mpr ⟨List.mem_map_of_mem _ hp, rfl⟩
    rw [hg] at hmem
    exact absurd hmem (List.not_mem_nil _)
  | cons hd tl =>
    obtain ⟨k₁, v₁⟩ := hd
    rw [hg] at hpw
    obtain ⟨s, hmem, hmax, hmin⟩ := idxmaxGo_spec tl k₁ v₁ hpw
    rw [← hg] at hmem hmax hmin
    obtain ⟨hkmem, hs⟩ := mem_groupSum.mp hmem
    refine ⟨idxmaxGo k₁ v₁ tl, rfl, hkmem, ?_, ?_⟩
    · intro k₂ hk₂
      have := hmax (k₂, keySum pairs k₂) (mem_groupSum.mpr ⟨hk₂, rfl⟩)
      simpa [← hs] using this
    · intro k₂ hk₂ hkeq
      exact hmin (k₂, keySum pairs k₂) (mem_groupSum.mpr ⟨hk₂, rfl⟩)
        (by simp [hkeq, hs])

theorem idxmax_groupSum_uniqueMax {pairs : List (String × ℚ)} {k₀ : String}
    (h : uniqueMax pairs k₀) : idxmax (groupSum pairs) = .ok k₀ := by
  have hne : pairs ≠ [] := by
    intro he
    rw [he] at h
    exact absurd h.1 (by simp)
  obtain ⟨k, hk, hkmem, hmax, _⟩ := idxmax_groupSum_spec pairs hne
  by_cases hkk : k = k₀
  · rw [hk, hkk]
  · exact absurd (lt_of_le_of_lt (hmax k₀ h.1) (h.2 k hkmem hkk)) (lt_irrefl _)

theorem peak_sales_hour_eq (df : SalesDF) (hc : df.complete) :
    peak_sales_hour df = idxmax (groupSum (timeRevPairs df)) := by
  have h1 : "Time" ∈ df.presentCols := hc _ (by decide)
  have h2 : "Total Price" ∈ df.presentCols := hc _ (by decide)
  simp [peak_sales_hour, SalesDF.col, h1, h2, exbind_ok, timeRevPairs,
    List.zip_map']

theorem top_selling_item_eq (df : SalesDF) (hc : df.complete) :
    top_selling_item df = idxmax (groupSum (itemQtyPairs df)) := by
  have h1 : "Item" ∈ df.presentCols := hc _ (by decide)
  have h2 : "Quantity" ∈ df.presentCols := hc _ (by decide)
  simp [top_selling_item, SalesDF.col, h1, h2, exbind_ok, itemQtyPairs,
    List.zip_map']

theorem most_profitable_item_eq (df : SalesDF) (hc : df.complete) :
    most_profitable_item df = idxmax (groupSum (itemProfitPairs df)) := by
  have h1 : "Item" ∈ df.presentCols := hc _ (by decide)
  have h2 : "Profit" ∈ df.presentCols := hc _ (by decide)
  simp [most_profitable_item, SalesDF.col, h1, h2, exbind_ok, itemProfitPairs,
    List.zip_map']

/-- C1: on every well-formed sales table with zero rows, each of the three
grouping-and-max operations `peak_sales_hour`, `top_selling_item` and
`most_profitable_item` fails with `EmptyInputError` (pandas `idxmax` on the
empty grouped series) and returns no value. -/
theorem empty_table_grouping_errors (df : SalesDF) (hc : df.complete)
    (h : df.rows = []) :
    peak_sales_hour df = .error .emptyInputError ∧
    top_selling_item df = .error .emptyInputError ∧
    most_profitable_item df = .error .emptyInputError := by
  rw [peak_sales_hour_eq df hc, top_selling_item_eq df hc,
    most_profitable_item_eq df hc]
  simp [timeRevPairs, itemQtyPairs, itemProfitPairs, h, groupSum, sortedKeys,
    List.insertionSort, idxmax]

theorem empty_table_grouping_errors_witness :
    peak_sales_hour wdfEmpty = .error .emptyInputError ∧
    top_selling_item wdfEmpty = .error .emptyInputError ∧
    most_profitable_item wdfEmpty = .error .emptyInputError :=
  empty_table_grouping_errors wdfEmpty (by decide) rfl

/-- C4: on every well-formed sales table where exactly one group key attains
the maximal group sum, `peak_sales_hour` returns the `Time` key with the
maximal summed `Total Price`, `top_selling_item` the `Item` key with the
maximal summed `Quantity`, and `most_profitable_item` the `Item` key with
the maximal summed `Profit` (which may be negative). -/
theorem grouping_max_unique_spec (df : SalesDF) (hc : df.complete)
    (k₀ k₁ k₂ : String)
    (h₀ : uniqueMax (timeRevPairs df) k₀)
    (h₁ : uniqueMax (itemQtyPairs df) k₁)
    (h₂ : uniqueMax (itemProfitPairs df) k₂) :
    peak_sales_hour df = .ok k₀ ∧ top_selling_item df = .ok k₁ ∧
      most_profitable_item df = .ok k₂ := by
  rw [peak_sales_hour_eq df hc, top_selling_item_eq df hc,
    most_profitable_item_eq df hc]
  exact ⟨idxmax_groupSum_uniqueMax h₀, idxmax_groupSum_uniqueMax h₁,
    idxmax_groupSum_uniqueMax h₂⟩

theorem grouping_max_unique_spec_witness :
    peak_sales_hour wdf = .ok "09:00" ∧ top_selling_item wdf = .ok "Coffee" ∧
      most_profitable_item wdf = .ok "Coffee" :=
  grouping_max_unique_spec wdf (by decide) "09:00" "Coffee" "Coffee"
    (by simp [uniqueMax, timeRevPairs, keySum, wdf, wRow1, wRow2] <;> norm_num)
    (by simp [uniqueMax, itemQtyPairs, keySum, wdf, wRow1, wRow2] <;> norm_num)
    (by simp [uniqueMax, itemProfitPairs, keySum, wdf, wRow1, wRow2] <;> norm_num)

/-- C9: on every well-formed non-empty sales table, each of the three
grouping-and-max operations returns a key whose group sum is maximal and
which is the smallest key (in the lexicographic string order used by the
sorted grouping) among all keys attaining that maximum — in particular, when
several keys tie, the smallest tied key is returned, fixing the spec's
implementation-defined tie-break order. -/
theorem grouping_max_tie_break_spec (df : SalesDF) (hc : df.complete)
    (hne : df.rows ≠ []) :
    isMinMaximizer (timeRevPairs df) (peak_sales_hour df) ∧
    isMinMaximizer (itemQtyPairs df) (top_selling_item df) ∧
    isMinMaximizer (itemProfitPairs df) (most_profitable_item df) := by
  rw [peak_sales_hour_eq df hc, top_selling_item_eq df hc,
    most_profitable_item_eq df hc]
  refine ⟨idxmax_groupSum_spec _ ?_, idxmax_groupSum_spec _ ?_,
    idxmax_groupSum_spec _ ?_⟩ <;>
    simp [timeRevPairs, itemQtyPairs, itemProfitPairs, hne]

theorem grouping_max_tie_break_spec_witness :
    isMinMaximizer (timeRevPairs wdfTie) (peak_sales_hour wdfTie) ∧
    isMinMaximizer (itemQtyPairs wdfTie) (top_selling_item wdfTie) ∧
    isMinMaximizer (itemProfitPairs wdfTie) (most_profitable_item wdfTie) :=
  grouping_max_tie_break_spec wdfTie (by decide) (by simp [wdfTie])

/-- C3: on every well-formed sales table, `gross_margin` returns a value (no
error): `(sum Profit / sum Total Price) * 100` when the `Total Price` values
sum to a nonzero value, and exactly 0 when they sum to 0 (including the empty
table).  In the rational model no NaN exists; the zero-sum case is decided by
the explicit truthiness guard, not by a division. -/
theorem gross_margin_spec (df : SalesDF) (hc : df.complete) :
    ∃ q, gross_margin df = .ok q ∧
      (revSum df ≠ 0 → q = (profSum df / revSum df) * 100) ∧
      (revSum df = 0 → q = 0) := by
  have h1 : "Total Price" ∈ df.presentCols := hc _ (by decide)
  have h2 : "Profit" ∈ df.presentCols := hc _ (by decide)
  refine ⟨if revSum df ≠ 0 then (profSum df / revSum df) * 100 else 0,
    ?_, ?_, ?_⟩
  · simp only [gross_margin, SalesDF.col, h1, h2, if_pos, exbind_ok,
      expure_eq, revSum, profSum]
  · intro h
    rw [if_pos h]
  · intro h
    rw [if_neg (by simp [h])]

theorem gross_margin_spec_witness :
    ∃ q, gross_margin wdf = .ok q ∧
      (revSum wdf ≠ 0 → q = (profSum wdf / revSum wdf) * 100) ∧
      (revSum wdf = 0 → q = 0) :=
  gross_margin_spec wdf (by decide)

theorem sum_map_sub_q (l : List α) (f g : α → ℚ) :
    (l.map fun a => f a - g a).sum = (l.map f).sum - (l.map g).sum := by
  induction l with
  | nil => simp
  | cons a t ih =>
    simp only [List.map_cons, List.sum_cons, ih]
    ring

/-- C7: on every well-formed sales table whose rows are internally consistent
(`Profit = Total Price - Cost per Unit * Quantity` on each row),
`total_profit` equals `total_revenue` minus `total_cost`. -/
theorem profit_revenue_cost_identity (df : SalesDF) (hc : df.complete)
    (h : ∀ r ∈ df.rows, r.profit = r.totalPrice - r.costPerUnit * r.quantity) :
    ∃ p rv c, total_profit df = .ok p ∧ total_revenue df = .ok rv ∧
      total_cost df = .ok c ∧ p = rv - c := by
  have h1 : "Total Price" ∈ df.presentCols := hc _ (by decide)
  have h2 : "Profit" ∈ df.presentCols := hc _ (by decide)
  have h3 : "Cost per Unit" ∈ df.presentCols := hc _ (by decide)
  have h4 : "Quantity" ∈ df.presentCols := hc _ (by decide)
  refine ⟨(df.rows.map (·.profit)).sum, (df.rows.map (·.totalPrice)).sum,
    (df.rows.map fun r => r.costPerUnit * r.quantity).sum, ?_, ?_, ?_, ?_⟩
  · simp [total_profit, SalesDF.col, h2, exbind_ok, expure_eq]
  · simp [total_revenue, SalesDF.col, h1, exbind_ok, expure_eq]
  · simp [total_cost, SalesDF.col, h3, h4, exbind_ok, expure_eq,
      List.zip_map', List.map_map, Function.comp_def]
  · rw [List.map_congr_left h, sum_map_sub_q]

theorem profit_revenue_cost_identity_witness :
    ∃ p rv c, total_profit wdf = .ok p ∧ total_revenue wdf = .ok rv ∧
      total_cost wdf = .ok c ∧ p = rv - c :=
  profit_revenue_cost_identity wdf (by decide)
    (by simp [wdf, wRow1, wRow2] <;> norm_num)

/-- C6: on every pair of tables with the `Item` columns present,
`unsold_items` returns, as a set, exactly the inventory items that appear
nowhere in the sales `Item` column; it returns the empty list when every
inventory item was sold, and the full inventory item set when the sales
table is empty. -/
theorem unsold_items_spec (inv : InvDF) (df : SalesDF)
    (hs : "Item" ∈ df.presentCols) (hi : "Item" ∈ inv.presentCols) :
    ∃ l, unsold_items inv df = .ok l ∧
      (∀ x, x ∈ l ↔ x ∈ inv.rows.map (·.item) ∧ x ∉ df.rows.map (·.item)) ∧
      ((∀ x ∈ inv.rows.map (·.item), x ∈ df.rows.map (·.item)) → l = []) ∧
      (df.rows = [] → ∀ x, x ∈ l ↔ x ∈ inv.rows.map (·.item)) := by
  refine ⟨(inv.rows.map (·.item)).dedup.filter
      (fun x => decide (x ∉ df.rows.map (·.item))), ?_, ?_, ?_, ?_⟩
  · unfold unsold_items SalesDF.col InvDF.col
    rw [if_pos hs, if_pos hi]
    rfl
  · intro x
    simp [List.mem_filter, List.mem_dedup]
  · intro hall
    rw [List.filter_eq_nil_iff]
    intro a ha
    simp only [List.mem_dedup] at ha
    simp [hall a ha]
  · intro hrows x
    simp [List.mem_filter, List.mem_dedup, hrows]

theorem unsold_items_spec_witness :
    ∃ l, unsold_items winv wdf = .ok l ∧
      (∀ x, x ∈ l ↔ x ∈ winv.rows.map (·.item) ∧ x ∉ wdf.rows.map (·.item)) ∧
      ((∀ x ∈ winv.rows.map (·.item), x ∈ wdf.rows.map (·.item)) → l = []) ∧
      (wdf.rows = [] → ∀ x, x ∈ l ↔ x ∈ winv.rows.map (·.item)) :=
  unsold_items_spec winv wdf (by decide) (by decide)

/-- C2 counterexample: the zero-row sales table lacking the `Quantity`
column makes `average_basket_size` return the value 0 rather than fail with
`SchemaError` — the conditional expression's `len(df)` test is evaluated
before the column is read. -/
theorem average_basket_size_missing_quantity_ok :
    "Quantity" ∉ wdfNoQty.presentCols ∧
    average_basket_size wdfNoQty = .ok 0 ∧
    average_basket_size wdfNoQty ≠ .error .schemaError := by
  have h0 : average_basket_size wdfNoQty = .ok 0 := rfl
  refine ⟨by decide, h0, ?_⟩
  rw [h0]
  intro h
  exact Except.noConfusion h

/-- C2 as amended: every metric function that reads a column fails with
`SchemaError` whenever one of the columns it reads is missing — except that
`average_basket_size` does so only on a table with at least one row, since
on a zero-row table it returns 0.0 without reading `Quantity`
(`number_of_transactions` reads no column and never fails). -/
theorem missing_column_schema_errors (df : SalesDF) (inv : InvDF) :
    ("Total Price" ∉ df.presentCols →
      total_revenue df = .error .schemaError) ∧
    ("Cost per Unit" ∉ df.presentCols ∨ "Quantity" ∉ df.presentCols →
      total_cost df = .error .schemaError) ∧
    ("Profit" ∉ df.presentCols → total_profit df = .error .schemaError) ∧
    ("Total Price" ∉ df.presentCols ∨ "Profit" ∉ df.presentCols →
      gross_margin df = .error .schemaError) ∧
    ("Quantity" ∉ df.presentCols → total_units_sold df = .error .schemaError) ∧
    ("Quantity" ∉ df.presentCols → df.rows ≠ [] →
      average_basket_size df = .error .schemaError) ∧
    ("Time" ∉ df.presentCols ∨ "Total Price" ∉ df.presentCols →
      peak_sales_hour df = .error .schemaError) ∧
    ("Item" ∉ df.presentCols ∨ "Quantity" ∉ df.presentCols →
      top_selling_item df = .error .schemaError) ∧
    ("Item" ∉ df.presentCols ∨ "Profit" ∉ df.presentCols →
      most_profitable_item df = .error .schemaError) ∧
    ("Stock" ∉ inv.presentCols ∨ "Item" ∉ inv.presentCols →
      low_stock_items inv 10 = .error .schemaError) ∧
    ("Item" ∉ df.presentCols ∨ "Item" ∉ inv.presentCols →
      unsold_items inv df = .error .schemaError) ∧
    ("Stock" ∉ inv.presentCols ∨ "Item" ∉ inv.presentCols →
      fast_movers inv = .error .schemaError) ∧
    ("Item" ∉ df.presentCols ∨ "Quantity" ∉ df.presentCols ∨
        "Total Price" ∉ df.presentCols ∨ "Profit" ∉ df.presentCols →
      low_margin_high_sellers df 10 5 = .error .schemaError) := by
  refine ⟨?_, ?_, ?_, ?_, ?_, ?_, ?_, ?_, ?_, ?_, ?_, ?_, ?_⟩
  · intro h
    simp [total_revenue, SalesDF.col, h, exbind_error]
  · rintro (h | h)
    · simp [total_cost, SalesDF.col, h, exbind_error]
    · by_cases h1 : "Cost per Unit" ∈ df.presentCols <;>
        simp [total_cost, SalesDF.col, h, h1, exbind_ok, exbind_error]
  · intro h
    simp [total_profit, SalesDF.col, h, exbind_error]
  · rintro (h | h)
    · simp [gross_margin, SalesDF.col, h, exbind_error]
    · by_cases h1 : "Total Price" ∈ df.presentCols <;>
        simp [gross_margin, SalesDF.col, h, h1, exbind_ok, exbind_error]
  · intro h
    simp [total_units_sold, SalesDF.col, h, exbind_error]
  · intro h hne
    have hlen : df.rows.length ≠ 0 := fun hl => hne (List.length_eq_zero.mp hl)
    simp [average_basket_size, SalesDF.col, h, hlen, exbind_error]
  · rintro (h | h)
    · simp [peak_sales_hour, SalesDF.col, h, exbind_error]
    · by_cases h1 : "Time" ∈ df.presentCols <;>
        simp [peak_sales_hour, SalesDF.col, h, h1, exbind_ok, exbind_error]
  · rintro (h | h)
    · simp [top_selling_item, SalesDF.col, h, exbind_error]
    · by_cases h1 : "Item" ∈ df.presentCols <;>
        simp [top_selling_item, SalesDF.col, h, h1, exbind_ok, exbind_error]
  · rintro (h | h)
    · simp [most_profitable_item, SalesDF.col, h, exbind_error]
    · by_cases h1 : "Item" ∈ df.presentCols <;>
        simp [most_profitable_item, SalesDF.col, h, h1, exbind_ok, exbind_error]
  · rintro (h | h)
    · simp [low_stock_items, InvDF.col, h, exbind_error]
    · by_cases h1 : "Stock" ∈ inv.presentCols <;>
        simp [low_stock_items, InvDF.col, h, h1, exbind_ok, exbind_error]
  · rintro (h | h)
    · simp [unsold_items, SalesDF.col, h, exbind_error]
    · by_cases h1 : "Item" ∈ df.presentCols <;>
        simp [unsold_items, SalesDF.col, InvDF.col, h, h1, exbind_ok,
          exbind_error]
  · rintro (h | h)
    · simp [fast_movers, InvDF.col, h, exbind_error]
    · by_cases h1 : "Stock" ∈ inv.presentCols <;>
        simp [fast_movers, InvDF.col, h, h1, exbind_ok, exbind_error]
  · rintro (h | h | h | h)
    · simp [low_margin_high_sellers, SalesDF.col, h, exbind_error]
    · by_cases h1 : "Item" ∈ df.presentCols <;>
        simp [low_margin_high_sellers, SalesDF.col, h, h1, exbind_ok,
          exbind_error]
    · by_cases h1 : "Item" ∈ df.presentCols <;>
        by_cases h2 : "Quantity" ∈ df.presentCols <;>
        simp [low_margin_high_sellers, SalesDF.col, h, h1, h2, exbind_ok,
          exbind_error]
    · by_cases h1 : "Item" ∈ df.presentCols <;>
        by_cases h2 : "Quantity" ∈ df.presentCols <;>
        by_cases h3 : "Total Price" ∈ df.presentCols <;>
        simp [low_margin_high_sellers, SalesDF.col, h, h1, h2, h3, exbind_ok,
          exbind_error]

theorem missing_column_schema_errors_witness :
    total_revenue wdfBare = .error .schemaError ∧
    total_cost wdfBare = .error .schemaError ∧
    total_profit wdfBare = .error .schemaError ∧
    gross_margin wdfBare = .error .schemaError ∧
    total_units_sold wdfBare = .error .schemaError ∧
    average_basket_size wdfBare = .error .schemaError ∧
    peak_sales_hour wdfBare = .error .schemaError ∧
    top_selling_item wdfBare = .error .schemaError ∧
    most_profitable_item wdfBare = .error .schemaError ∧
    low_stock_items winvBare 10 = .error .schemaError ∧
    unsold_items winvBare wdfBare = .error .schemaError ∧
    fast_movers winvBare = .error .schemaError ∧
    low_margin_high_sellers wdfBare 10 5 = .error .schemaError :=
  ⟨(missing_column_schema_errors wdfBare winvBare).1 (by decide),
   (missing_column_schema_errors wdfBare winvBare).2.1 (Or.inl (by decide)),
   (missing_column_schema_errors wdfBare winvBare).2.2.1 (by decide),
   (missing_column_schema_errors wdfBare winvBare).2.2.2.1 (Or.inl (by decide)),
   (missing_column_schema_errors wdfBare winvBare).2.2.2.2.1 (by decide),
   (missing_column_schema_errors wdfBare winvBare).2.2.2.2.2.1 (by decide)
     (by simp [wdfBare]),
   (missing_column_schema_errors wdfBare winvBare).2.2.2.2.2.2.1
     (Or.inl (by decide)),
   (missing_column_schema_errors wdfBare winvBare).2.2.2.2.2.2.2.1
     (Or.inl (by decide)),
   (missing_column_schema_errors wdfBare winvBare).2.2.2.2.2.2.2.2.1
     (Or.inl (by decide)),
   (missing_column_schema_errors wdfBare winvBare).2.2.2.2.2.2.2.2.2.1
     (Or.inl (by decide)),
   (missing_column_schema_errors wdfBare winvBare).2.2.2.2.2.2.2.2.2.2.1
     (Or.inl (by decide)),
   (missing_column_schema_errors wdfBare winvBare).2.2.2.2.2.2.2.2.2.2.2.1
     (Or.inl (by decide)),
   (missing_column_schema_errors wdfBare winvBare).2.2.2.2.2.2.2.2.2.2.2.2
     (Or.inl (by decide))⟩

theorem low_margin_high_sellers_eq (df : SalesDF) (hc : df.complete)
    (m q : ℚ) :
    low_margin_high_sellers df m q = .ok
      ((sortedKeys (df.rows.map (·.item))).filter fun k =>
        decide (q ≤ keySum (itemQtyPairs df) k) &&
          (ratDivF (keySum (itemProfitPairs df) k)
            (keySum (itemRevPairs df) k)).mul100.ltRat m) := by
  have h1 : "Item" ∈ df.presentCols := hc _ (by decide)
  have h2 : "Quantity" ∈ df.presentCols := hc _ (by decide)
  have h3 : "Total Price" ∈ df.presentCols := hc _ (by decide)
  have h4 : "Profit" ∈ df.presentCols := hc _ (by decide)
  simp [low_margin_high_sellers, SalesDF.col, h1, h2, h3, h4, exbind_ok,
    expure_eq, List.zip_map', List.filter_map, List.map_map,
    Function.comp_def, keySum, itemQtyPairs, itemProfitPairs, itemRevPairs]

/-- C5: on every well-formed sales table in which every item group has a
nonzero summed `Total Price`, `low_margin_high_sellers` with the source's
default thresholds (`margin_threshold = 10.0`, `qty_threshold = 5`) returns
exactly those item names whose group has summed `Quantity >= 5` and group
margin `(summed Profit / summed Total Price) * 100` strictly below 10, and
no others. -/
theorem low_margin_high_sellers_spec (df : SalesDF) (hc : df.complete)
    (hrev : ∀ k ∈ df.rows.map (·.item), keySum (itemRevPairs df) k ≠ 0) :
    ∃ l, low_margin_high_sellers df 10 5 = .ok l ∧
      ∀ k, k ∈ l ↔ k ∈ df.rows.map (·.item) ∧
        5 ≤ keySum (itemQtyPairs df) k ∧
        (keySum (itemProfitPairs df) k / keySum (itemRevPairs df) k) * 100
          < 10 := by
  refine ⟨_, low_margin_high_sellers_eq df hc 10 5, ?_⟩
  intro k
  rw [List.mem_filter, sortedKeys_mem]
  constructor
  · rintro ⟨hk, hcond⟩
    refine ⟨hk, ?_⟩
    simpa [ratDivF, hrev k hk, XF.mul100, XF.ltRat] using hcond
  · rintro ⟨hk, h5, h10⟩
    refine ⟨hk, ?_⟩
    simp [ratDivF, hrev k hk, XF.mul100, XF.ltRat]
    exact ⟨h5, h10⟩

theorem low_margin_high_sellers_spec_witness :
    ∃ l, low_margin_high_sellers wdfMargin 10 5 = .ok l ∧
      ∀ k, k ∈ l ↔ k ∈ wdfMargin.rows.map (·.item) ∧
        5 ≤ keySum (itemQtyPairs wdfMargin) k ∧
        (keySum (itemProfitPairs wdfMargin) k /
          keySum (itemRevPairs wdfMargin) k) * 100 < 10 :=
  low_margin_high_sellers_spec wdfMargin (by decide)
    (by simp [keySum, itemRevPairs, wdfMargin] <;> norm_num)

/-- C10: a well-formed sales table containing an item group whose summed
`Total Price` is 0 still makes `low_margin_high_sellers` return normally (the
Series division yields `±inf`/`NaN`, no exception); a group whose summed
`Total Price` and summed `Profit` are both 0 gets the `NaN` margin, fails
the `Margin < margin_threshold` comparison, and is never in the result. -/
theorem low_margin_zero_revenue_group (df : SalesDF) (hc : df.complete)
    (k₀ : String) (hmem : k₀ ∈ df.rows.map (·.item))
    (hrev : keySum (itemRevPairs df) k₀ = 0) :
    ∃ l, low_margin_high_sellers df 10 5 = .ok l ∧
      (keySum (itemProfitPairs df) k₀ = 0 → k₀ ∉ l) := by
  refine ⟨_, low_margin_high_sellers_eq df hc 10 5, ?_⟩
  intro hprof hk
  rw [List.mem_filter] at hk
  have hcond := hk.2
  simp [ratDivF, hrev, hprof, XF.mul100, XF.ltRat] at hcond

theorem low_margin_zero_revenue_group_witness :
    ∃ l, low_margin_high_sellers wdfZero 10 5 = .ok l ∧
      (keySum (itemProfitPairs wdfZero) "Freebie" = 0 → "Freebie" ∉ l) :=
  low_margin_zero_revenue_group wdfZero (by decide) "Freebie"
    (by simp [wdfZero])
    (by simp [keySum, itemRevPairs, wdfZero] <;> norm_num)

theorem nlfreeS_append {a b : String} (ha : nlfreeS a) (hb : nlfreeS b) :
    nlfreeS (a ++ b) := by
  intro hm
  rw [String.data_append] at hm
  rcases List.mem_append.mp hm with h | h
  · exact ha h
  · exact hb h

theorem digitChar_ne_newline (d : ℕ) : digitChar d ≠ '\n' := by
  unfold digitChar
  split_ifs <;> decide

theorem natDigitsAux_nlfree (fuel : ℕ) : ∀ n, nlfreeL (natDigitsAux fuel n) := by
  induction fuel with
  | zero =>
    intro n
    simp [natDigitsAux, nlfreeL]
  | succ f ih =>
    intro n
    unfold natDigitsAux
    split
    · simp [nlfreeL]
    · intro hmem
      rcases List.mem_append.mp hmem with h | h
      · exact ih (n / 10) h
      · exact digitChar_ne_newline (n % 10) (List.mem_singleton.mp h).symm

theorem natStr_nlfree (n : ℕ) : nlfreeL (natStr n) := by
  unfold natStr
  split
  · decide
  · exact natDigitsAux_nlfree _ _

theorem natRepr_nlfree (n : ℕ) : nlfreeS (natRepr n) :=
  natStr_nlfree n

theorem fixedDigits_nlfree (p : ℕ) (q : ℚ) : nlfreeL (fixedDigits p q) := by
  unfold fixedDigits leftPad
  intro hmem
  rcases List.mem_append.mp hmem with h | h
  · exact absurd (List.eq_of_mem_replicate h) (by decide)
  · exact natStr_nlfree _ h

theorem group3Rev_mem (l : List Char) (c : Char) (h : c ∈ group3Rev l) :
    c ∈ l ∨ c = ',' := by
  induction l using group3Rev.induct with
  | case1 a b c₂ d rest ih =>
    rw [group3Rev] at h
    rcases List.mem_cons.mp h with rfl | h
    · exact Or.inl (by simp)
    rcases List.mem_cons.mp h with rfl | h
    · exact Or.inl (by simp)
    rcases List.mem_cons.mp h with rfl | h
    · exact Or.inl (by simp)
    rcases List.mem_cons.mp h with rfl | h
    · exact Or.inr rfl
    · rcases ih h with h2 | h2
      · exact Or.inl (by simp at h2 ⊢; tauto)
      · exact Or.inr h2
  | case2 l h1 =>
    rw [group3Rev] at h
    · exact Or.inl h
    · exact h1

theorem addCommas_nlfree {l : List Char} (h : nlfreeL l) :
    nlfreeL (addCommas l) := by
  unfold addCommas
  intro hm
  rw [List.mem_reverse] at hm
  rcases group3Rev_mem _ _ hm with h2 | h2
  · exact h (List.mem_reverse.mp h2)
  · exact absurd h2 (by decide)

theorem fmtFixed_nlfree (b : Bool) (p : ℕ) (q : ℚ) :
    nlfreeS (fmtFixed b p q) := by
  have hipnl : nlfreeL ((fixedDigits p q).take ((fixedDigits p q).length - p)) :=
    fun hx => fixedDigits_nlfree p q (List.take_subset _ _ hx)
  have hfpnl : nlfreeL ((fixedDigits p q).drop ((fixedDigits p q).length - p)) :=
    fun hx => fixedDigits_nlfree p q (List.drop_subset _ _ hx)
  unfold fmtFixed
  intro hm
  change '\n' ∈ _ ++ _ ++ _ at hm
  rcases List.mem_append.mp hm with h | h
  · rcases List.mem_append.mp h with h2 | h2
    · split at h2
      · exact absurd (List.mem_singleton.mp h2) (by decide)
      · exact absurd h2 (List.not_mem_nil _)
    · split at h2
      · exact addCommas_nlfree hipnl h2
      · exact hipnl h2
  · rcases List.mem_cons.mp h with h2 | h2
    · exact absurd h2 (by decide)
    · exact hfpnl h2

theorem joinComma_nlfree : ∀ l : List String, (∀ s ∈ l, nlfreeS s) →
    nlfreeS (joinComma l)
  | [], _ => by
    intro hm
    exact absurd hm (by decide)
  | [s], h => by
    simpa [joinComma] using h s (by simp)
  | s :: s₂ :: rest, h => by
    show nlfreeS (s ++ ", " ++ joinComma (s₂ :: rest))
    exact nlfreeS_append (nlfreeS_append (h s (by simp)) (by decide))
      (joinComma_nlfree (s₂ :: rest) fun x hx => h x (List.mem_cons_of_mem _ hx))

theorem fmtComma2_nlfree (q : ℚ) : nlfreeS (fmtComma2 q) := fmtFixed_nlfree _ _ _

theorem fmt1_nlfree (q : ℚ) : nlfreeS (fmt1 q) := fmtFixed_nlfree _ _ _

theorem fmt2_nlfree (q : ℚ) : nlfreeS (fmt2 q) := fmtFixed_nlfree _ _ _

theorem linePat_nlfree (label : String) (hl : nlfreeS label) (l : List String)
    (h : ∀ s ∈ l, nlfreeS s) : nlfreeL (linePat label l) := by
  unfold linePat
  rw [String.data_append, String.data_append]
  intro hm
  rcases List.mem_append.mp hm with hm | hm
  · rcases List.mem_append.mp hm with hm | hm
    · exact hl hm
    · exact joinComma_nlfree l h hm
  · exact absurd hm (by decide)

theorem summaryBody_nlfree (tr tp gm : ℚ) (tus nt : ℕ) (ab : ℚ)
    (psh tsi mpi : String) (h1 : nlfreeS psh) (h2 : nlfreeS tsi)
    (h3 : nlfreeS mpi) :
    nlfreeS (summaryBody tr tp gm tus nt ab psh tsi mpi) := by
  unfold summaryBody nlfreeS
  simp only [String.data_append, List.mem_append, not_or]
  repeat' apply And.intro
  all_goals first
    | exact h1
    | exact h2
    | exact h3
    | exact fmtComma2_nlfree _
    | exact fmt1_nlfree _
    | exact fmt2_nlfree _
    | exact natRepr_nlfree _
    | decide

set_option maxRecDepth 4000 in
theorem summaryBody_head (tr tp gm : ℚ) (tus nt : ℕ) (ab : ℚ)
    (psh tsi mpi : String) :
    (summaryBody tr tp gm tus nt ab psh tsi mpi).data.head? = some 'Y' := by
  unfold summaryBody
  simp only [String.data_append]
  simp only [List.cons_append, List.append_assoc, List.head?_cons]

theorem linePat_head (label : String) (c : Char) (cs : List Char)
    (hl : label.data = c :: cs) (l : List String) :
    (linePat label l).head? = some c := by
  unfold linePat
  simp only [String.data_append]
  rw [hl]
  simp

theorem linePat_label_ne {la lb : String} {ca cb : Char} {csa csb : List Char}
    (ha : la.data = ca :: csa) (hb : lb.data = cb :: csb) (hcc : ca ≠ cb)
    (l₁ l₂ : List String) : linePat la l₁ ≠ linePat lb l₂ := by
  intro h
  have h2 := congrArg List.head? h
  rw [linePat_head la ca csa ha, linePat_head lb cb csb hb] at h2
  exact hcc (Option.some.inj h2)

theorem linePat_ne_body {label : String} {c : Char} {cs : List Char}
    (hl : label.data = c :: cs) (hc : c ≠ 'Y') (l : List String)
    (tr tp gm : ℚ) (tus nt : ℕ) (ab : ℚ) (psh tsi mpi : String) :
    linePat label l ≠ (summaryBody tr tp gm tus nt ab psh tsi mpi).data := by
  intro h
  have h2 := congrArg List.head? h
  rw [linePat_head label c cs hl, summaryBody_head] at h2
  exact hc (Option.some.inj h2)

theorem splitNL_nlfree {x : List Char} (h : nlfreeL x) : splitNL x = [x] := by
  induction x with
  | nil => rfl
  | cons c rest ih =>
    simp only [nlfreeL, List.mem_cons, not_or] at h
    have hc : ¬ c = '\n' := fun hceq => h.1 hceq.symm
    unfold splitNL
    rw [if_neg hc, ih h.2]

theorem splitNL_append_newline {x : List Char} (y : List Char)
    (h : nlfreeL x) : splitNL (x ++ '\n' :: y) = x :: splitNL y := by
  induction x with
  | nil => simp [splitNL]
  | cons c rest ih =>
    simp only [nlfreeL, List.mem_cons, not_or] at h
    have hc : ¬ c = '\n' := fun hceq => h.1 hceq.symm
    rw [List.cons_append]
    rw [show splitNL (c :: (rest ++ '\n' :: y)) =
      (if c = '\n' then [] :: splitNL (rest ++ '\n' :: y)
       else match splitNL (rest ++ '\n' :: y) with
         | [] => [[c]]
         | l :: ls => (c :: l) :: ls) from rfl]
    rw [if_neg hc, ih h.2]

theorem splitNL_body_segs (segs : List (List Char)) : ∀ body : List Char,
    nlfreeL body → (∀ s ∈ segs, nlfreeL s) →
    splitNL (body ++ ((segs.map fun s => '\n' :: s).flatten)) = body :: segs := by
  induction segs with
  | nil =>
    intro body hb _
    simp [splitNL_nlfree hb]
  | cons s rest ih =>
    intro body hb hs
    simp only [List.map_cons, List.flatten_cons]
    rw [show ('\n' :: s) ++ ((rest.map fun s => '\n' :: s).flatten) =
      '\n' :: (s ++ (rest.map fun s => '\n' :: s).flatten) from rfl]
    rw [splitNL_append_newline _ hb,
      ih s (hs s (by simp)) fun x hx => hs x (List.mem_cons_of_mem _ hx)]

theorem mem_opt_singleton {x a : List Char} {c : Prop} [Decidable c]
    (h : x ∈ if c then ([] : List (List Char)) else [a]) : x = a := by
  split at h
  · exact absurd h (List.not_mem_nil _)
  · simpa using h

theorem optLine_data (label : String) (l : List String) :
    (optLine label l).data =
      ((if l = [] then ([] : List (List Char)) else [linePat label l]).map
        fun s => '\n' :: s).flatten := by
  unfold optLine linePat
  split
  · rfl
  · simp only [List.map_cons, List.map_nil, List.flatten_cons,
      List.flatten_nil, List.append_nil, String.data_append, List.cons_append,
      List.nil_append, List.append_assoc]

theorem natural_language_summary_splitNL (tr _tc tp gm : ℚ) (tus nt : ℕ)
    (ab : ℚ) (psh tsi mpi : String) (l₁ l₂ l₃ l₄ : List String)
    (h1 : nlfreeS psh) (h2 : nlfreeS tsi) (h3 : nlfreeS mpi)
    (hl₁ : ∀ s ∈ l₁, nlfreeS s) (hl₂ : ∀ s ∈ l₂, nlfreeS s)
    (hl₃ : ∀ s ∈ l₃, nlfreeS s) (hl₄ : ∀ s ∈ l₄, nlfreeS s) :
    splitNL (natural_language_summary tr _tc tp gm tus nt ab psh tsi mpi
        l₁ l₂ l₃ l₄).data =
      (summaryBody tr tp gm tus nt ab psh tsi mpi).data ::
        ((if l₁ = [] then [] else [linePat "Low stock items: " l₁]) ++
         (if l₂ = [] then [] else [linePat "Unsold items: " l₂]) ++
         (if l₃ = [] then [] else
           [linePat "Fast movers (sold out/nearly sold out): " l₃]) ++
         (if l₄ = [] then [] else
           [linePat "High-selling, low-margin items: " l₄])) := by
  have hsegs : ∀ s ∈ (if l₁ = [] then ([] : List (List Char)) else
        [linePat "Low stock items: " l₁]) ++
      (if l₂ = [] then [] else [linePat "Unsold items: " l₂]) ++
      (if l₃ = [] then [] else
        [linePat "Fast movers (sold out/nearly sold out): " l₃]) ++
      (if l₄ = [] then [] else
        [linePat "High-selling, low-margin items: " l₄]), nlfreeL s := by
    intro s hs
    rcases List.mem_append.mp hs with hs3 | hs4
    · rcases List.mem_append.mp hs3 with hs2 | hs3b
      · rcases List.mem_append.mp hs2 with hs1 | hs2b
        · rw [mem_opt_singleton hs1]
          exact linePat_nlfree _ (by decide) _ hl₁
        · rw [mem_opt_singleton hs2b]
          exact linePat_nlfree _ (by decide) _ hl₂
      · rw [mem_opt_singleton hs3b]
        exact linePat_nlfree _ (by decide) _ hl₃
    · rw [mem_opt_singleton hs4]
      exact linePat_nlfree _ (by decide) _ hl₄
  unfold natural_language_summary
  rw [String.data_append, String.data_append, String.data_append,
    String.data_append, optLine_data, optLine_data, optLine_data, optLine_data]
  simp only [List.append_assoc, ← List.flatten_append, ← List.map_append]
  simp only [← List.append_assoc] at hsegs ⊢
  exact splitNL_body_segs _ _
    (summaryBody_nlfree tr tp gm tus nt ab psh tsi mpi h1 h2 h3) hsegs

/-- C8: for every MetricBundle whose string-valued metrics and list entries
are single-line values (no newline character — the well-formedness the §3
data model implies for item names and time-bucket labels), the composer's
output contains each of the four diagnostic lines — the fixed label followed
by the comma-joined list and a final period, as one whole line of the report
— if and only if the corresponding list argument is non-empty; an empty list
produces no such line. -/
theorem natural_language_summary_conditional_lines (tr _tc tp gm : ℚ)
    (tus nt : ℕ) (ab : ℚ) (psh tsi mpi : String) (l₁ l₂ l₃ l₄ : List String)
    (h1 : nlfreeS psh) (h2 : nlfreeS tsi) (h3 : nlfreeS mpi)
    (hl₁ : ∀ s ∈ l₁, nlfreeS s) (hl₂ : ∀ s ∈ l₂, nlfreeS s)
    (hl₃ : ∀ s ∈ l₃, nlfreeS s) (hl₄ : ∀ s ∈ l₄, nlfreeS s) :
    (linePat "Low stock items: " l₁ ∈
      splitNL (natural_language_summary tr _tc tp gm tus nt ab psh tsi mpi
        l₁ l₂ l₃ l₄).data ↔ l₁ ≠ []) ∧
    (linePat "Unsold items: " l₂ ∈
      splitNL (natural_language_summary tr _tc tp gm tus nt ab psh tsi mpi
        l₁ l₂ l₃ l₄).data ↔ l₂ ≠ []) ∧
    (linePat "Fast movers (sold out/nearly sold out): " l₃ ∈
      splitNL (natural_language_summary tr _tc tp gm tus nt ab psh tsi mpi
        l₁ l₂ l₃ l₄).data ↔ l₃ ≠ []) ∧
    (linePat "High-selling, low-margin items: " l₄ ∈
      splitNL (natural_language_summary tr _tc tp gm tus nt ab psh tsi mpi
        l₁ l₂ l₃ l₄).data ↔ l₄ ≠ []) := by
  rw [natural_language_summary_splitNL tr _tc tp gm tus nt ab psh tsi mpi
    l₁ l₂ l₃ l₄ h1 h2 h3 hl₁ hl₂ hl₃ hl₄]
  refine ⟨⟨?_, ?_⟩, ⟨?_, ?_⟩, ⟨?_, ?_⟩, ⟨?_, ?_⟩⟩
  · intro hmem hempty
    subst hempty
    rcases List.mem_cons.mp hmem with h | h
    · exact absurd h (linePat_ne_body rfl (by decide) _ _ _ _ _ _ _ _ _ _)
    rcases List.mem_append.mp h with h | h
    · rcases List.mem_append.mp h with h | h
      · rcases List.mem_append.mp h with h | h
        · rw [if_pos rfl] at h
          exact absurd h (List.not_mem_nil _)
        · exact absurd (mem_opt_singleton h)
            (linePat_label_ne rfl rfl (by decide) _ _)
      · exact absurd (mem_opt_singleton h)
          (linePat_label_ne rfl rfl (by decide) _ _)
    · exact absurd (mem_opt_singleton h)
        (linePat_label_ne rfl rfl (by decide) _ _)
  · intro hne
    simp [hne]
  · intro hmem hempty
    subst hempty
    rcases List.mem_cons.mp hmem with h | h
    · exact absurd h (linePat_ne_body rfl (by decide) _ _ _ _ _ _ _ _ _ _)
    rcases List.mem_append.mp h with h | h
    · rcases List.mem_append.mp h with h | h
      · rcases List.mem_append.mp h with h | h
        · exact absurd (mem_opt_singleton h)
            (linePat_label_ne rfl rfl (by decide) _ _)
        · rw [if_pos rfl] at h
          exact absurd h (List.not_mem_nil _)
      · exact absurd (mem_opt_singleton h)
          (linePat_label_ne rfl rfl (by decide) _ _)
    · exact absurd (mem_opt_singleton h)
        (linePat_label_ne rfl rfl (by decide) _ _)
  · intro hne
    simp [hne]
  · intro hmem hempty
    subst hempty
    rcases List.mem_cons.mp hmem with h | h
    · exact absurd h (linePat_ne_body rfl (by decide) _ _ _ _ _ _ _ _ _ _)
    rcases List.mem_append.mp h with h | h
    · rcases List.mem_append.mp h with h | h
      · rcases List.mem_append.mp h with h | h
        · exact absurd (mem_opt_singleton h)
            (linePat_label_ne rfl rfl (by decide) _ _)
        · exact absurd (mem_opt_singleton h)
            (linePat_label_ne rfl rfl (by decide) _ _)
      · rw [if_pos rfl] at h
        exact absurd h (List.not_mem_nil _)
    · exact absurd (mem_opt_singleton h)
        (linePat_label_ne rfl rfl (by decide) _ _)
  · intro hne
    simp [hne]
  · intro hmem hempty
    subst hempty
    rcases List.mem_cons.mp hmem with h | h
    · exact absurd h (linePat_ne_body rfl (by decide) _ _ _ _ _ _ _ _ _ _)
    rcases List.mem_append.mp h with h | h
    · rcases List.mem_append.mp h with h | h
      · rcases List.mem_append.mp h with h | h
        · exact absurd (mem_opt_singleton h)
            (linePat_label_ne rfl rfl (by decide) _ _)
        · exact absurd (mem_opt_singleton h)
            (linePat_label_ne rfl rfl (by decide) _ _)
      · exact absurd (mem_opt_singleton h)
          (linePat_label_ne rfl rfl (by decide) _ _)
    · rw [if_pos rfl] at h
      exact absurd h (List.not_mem_nil _)
  · intro hne
    simp [hne]

theorem natural_language_summary_conditional_lines_witness :
    (linePat "Low stock items: " ["Coffee"] ∈
      splitNL (natural_language_summary 11 4 (15/2) (682/10) 4 2 2 "09:00"
        "Coffee" "Coffee" ["Coffee"] ["Milk"] [] []).data ↔
      (["Coffee"] : List String) ≠ []) ∧
    (linePat "Unsold items: " ["Milk"] ∈
      splitNL (natural_language_summary 11 4 (15/2) (682/10) 4 2 2 "09:00"
        "Coffee" "Coffee" ["Coffee"] ["Milk"] [] []).data ↔
      (["Milk"] : List String) ≠ []) ∧
    (linePat "Fast movers (sold out/nearly sold out): " [] ∈
      splitNL (natural_language_summary 11 4 (15/2) (682/10) 4 2 2 "09:00"
        "Coffee" "Coffee" ["Coffee"] ["Milk"] [] []).data ↔
      ([] : List String) ≠ []) ∧
    (linePat "High-selling, low-margin items: " [] ∈
      splitNL (natural_language_summary 11 4 (15/2) (682/10) 4 2 2 "09:00"
        "Coffee" "Coffee" ["Coffee"] ["Milk"] [] []).data ↔
      ([] : List String) ≠ []) :=
  natural_language_summary_conditional_lines 11 4 (15/2) (682/10) 4 2 2
    "09:00" "Coffee" "Coffee" ["Coffee"] ["Milk"] [] []
    (by decide) (by decide) (by decide) (by decide) (by decide) (by decide)
    (by decide)
